import Mathlib

/-!
Verification of the assertion-and-mock evaluation engine of
`praisonai_test` (files `src/praisonai_test/mocks.py` and
`src/praisonai_test/assertions.py`), shallowly embedded in Lean 4.

Modelling conventions:
* Python strings are `String`; character-level work is done on `List Char`
  (`String.data`).
* Python floats are embedded as `ℚ` (all arithmetic in the engine is
  ratio comparison of small integers).
* Python exceptions (`AssertionError`, matcher exceptions, `TypeError`)
  are `Except String`.
* Python `re` patterns are embedded as a regular-expression AST with
  Brzozowski-derivative matching; `re.match` (anchored at position 0)
  and `re.search` with `\b` word boundaries are defined below.
* The embedding covers the ASCII fragment of Python's `str.lower`,
  `str.split`, `str.strip` and `re` character classes, which is the
  fragment exercised by the engine and its test-suite.
-/

namespace PraisonTest

/-- Whitespace characters recognised by Python's `str.split()` /
`str.strip()` (ASCII fragment: space, tab, newline, carriage return,
vertical tab, form feed). -/
def pyIsSpace (c : Char) : Bool :=
  c == ' ' || c == '\t' || c == '\n' || c == '\r' || c == '\x0b' || c == '\x0c'

/-- `leadsList n h` is true iff the list `n` is an initial segment of `h`. -/
def leadsList : List Char → List Char → Bool
  | [], _ => true
  | _ :: _, [] => false
  | a :: as, b :: bs => a == b && leadsList as bs

/-- `occursIn n h` is true iff `n` occurs contiguously somewhere inside `h`;
this is Python's substring test `n in h` at the character-list level. -/
def occursIn (n : List Char) : List Char → Bool
  | [] => leadsList n []
  | c :: rest => leadsList n (c :: rest) || occursIn n rest

/-- Python's `needle in hay` on strings (substring containment). -/
def strCont (hay needle : String) : Bool :=
  occursIn needle.data hay.data

/-- Auxiliary for `pySplit`: accumulates the current word (reversed). -/
def pySplitAux : List Char → List Char → List String
  | [], acc => if acc.isEmpty then [] else [String.mk acc.reverse]
  | c :: cs, acc =>
    if pyIsSpace c then
      if acc.isEmpty then pySplitAux cs []
      else String.mk acc.reverse :: pySplitAux cs []
    else pySplitAux cs (c :: acc)

/-- Python's `str.split()` with no argument: split on runs of whitespace,
discarding empty pieces. -/
def pySplit (s : String) : List String :=
  pySplitAux s.data []

/-- Python's `str.strip()`: remove leading and trailing whitespace. -/
def pyStrip (s : String) : String :=
  String.mk (((s.data.dropWhile pyIsSpace).reverse.dropWhile pyIsSpace).reverse)

/-- Python's `sep.join(parts)` for `sep = ", "`. -/
def joinComma : List String → String
  | [] => ""
  | [s] => s
  | s :: rest => s ++ ", " ++ joinComma rest

/-- Python's `str.lower()` (ASCII fragment). -/
def pyLower (s : String) : String :=
  String.mk (s.data.map Char.toLower)

end PraisonTest

namespace PraisonTest

/-! ### Regular expressions (`re` module fragment)

AST for the regular expressions used by the engine: character classes,
concatenation, alternation, Kleene star.  A literal character is the
singleton class; bounded repetitions are unfolded. -/

inductive Regex where
  /-- matches nothing -/
  | emptyset : Regex
  /-- matches the empty string -/
  | eps : Regex
  /-- a character class: matches one character satisfying the predicate -/
  | cls (p : Char → Bool) : Regex
  | cat (r₁ r₂ : Regex) : Regex
  | alt (r₁ r₂ : Regex) : Regex
  | star (r : Regex) : Regex

/-- Literal character (singleton class). -/
def Regex.chr (c : Char) : Regex := .cls (fun d => d == c)

/-- `r?` -/
def Regex.opt (r : Regex) : Regex := .alt r .eps

/-- `r{n}` -/
def Regex.rep (r : Regex) : Nat → Regex
  | 0 => .eps
  | n + 1 => .cat r (Regex.rep r n)

/-- `r+` -/
def Regex.plus (r : Regex) : Regex := .cat r (.star r)

/-- `r{n,}` -/
def Regex.repAtLeast (r : Regex) (n : Nat) : Regex := .cat (Regex.rep r n) (.star r)

/-- Does the regex accept the empty string? -/
def Regex.nullable : Regex → Bool
  | .emptyset => false
  | .eps => true
  | .cls _ => false
  | .cat a b => a.nullable && b.nullable
  | .alt a b => a.nullable || b.nullable
  | .star _ => true

/-- Brzozowski derivative of a regex by a character. -/
def Regex.deriv : Regex → Char → Regex
  | .emptyset, _ => .emptyset
  | .eps, _ => .emptyset
  | .cls p, c => if p c then .eps else .emptyset
  | .cat a b, c =>
    if a.nullable then .alt (.cat (a.deriv c) b) (b.deriv c)
    else .cat (a.deriv c) b
  | .alt a b, c => .alt (a.deriv c) (b.deriv c)
  | .star r, c => .cat (r.deriv c) (.star r)

/-- Whole-list acceptance: the regex matches exactly the character list. -/
def Regex.matchList (r : Regex) (cs : List Char) : Bool :=
  (cs.foldl Regex.deriv r).nullable

/-- `re.match` semantics: the regex matches some initial segment of the
character list (anchored at position 0, the match need not reach the end). -/
def Regex.matchLead : Regex → List Char → Bool
  | r, [] => r.nullable
  | r, c :: cs => r.nullable || Regex.matchLead (r.deriv c) cs

end PraisonTest

namespace PraisonTest

/-! ### `re.search` with `\b` word boundaries

All four PII patterns in `assertions.py` have the shape `\b R \b` with
`R` boundary-free.  `searchWB r prev cs` scans for a start position with
a word boundary before it such that `r` matches a segment ending at a
word boundary; `prev` is the character just before `cs` in the full
input (`none` at the very start). -/

/-- Python `\w` (ASCII fragment): letters, digits, underscore. -/
def isWordChar (c : Char) : Bool := c.isAlphanum || c == '_'

def isWordOpt : Option Char → Bool
  | none => false
  | some c => isWordChar c

/-- A `\b` word boundary holds between two (optional) characters iff
exactly one of them is a word character. -/
def boundary (a b : Option Char) : Bool := isWordOpt a != isWordOpt b

/-- `matchEndB r prev cs`: `r` matches some initial segment `mid` of `cs`
such that a word boundary holds between the last character of `mid`
(or `prev` when `mid` is empty) and the character following `mid`. -/
def matchEndB : Regex → Option Char → List Char → Bool
  | r, prev, [] => r.nullable && boundary prev none
  | r, prev, c :: rest =>
    (r.nullable && boundary prev (some c)) || matchEndB (r.deriv c) (some c) rest

/-- `re.search(\b r \b, s)` semantics: some position of `cs` starts a
match of `r` flanked by word boundaries. -/
def searchWB (r : Regex) : Option Char → List Char → Bool
  | prev, [] => boundary prev none && matchEndB r prev []
  | prev, c :: rest =>
    (boundary prev (some c) && matchEndB r prev (c :: rest)) ||
    searchWB r (some c) rest

end PraisonTest

namespace PraisonTest

/-! ### PII patterns (`assert_no_pii`, assertions.py lines 232-249)

The four regexes of `assert_no_pii`, with their surrounding `\b`
handled by `searchWB`:
  email:       `\b[A-Za-z0-9._%+-]+@[A-Za-z0-9.-]+\.[A-Z|a-z]{2,}\b`
  phone:       `\b\d{3}[-.]?\d{3}[-.]?\d{4}\b`
  ssn:         `\b\d{3}-\d{2}-\d{4}\b`
  credit_card: `\b\d{4}[-\s]?\d{4}[-\s]?\d{4}[-\s]?\d{4}\b`
Note the source's TLD class `[A-Z|a-z]` literally contains `|`. -/

def emailLocalChar (c : Char) : Bool :=
  c.isAlphanum || c == '.' || c == '_' || c == '%' || c == '+' || c == '-'

def emailDomainChar (c : Char) : Bool := c.isAlphanum || c == '.' || c == '-'

def emailTldChar (c : Char) : Bool := c.isUpper || c == '|' || c.isLower

def emailRegex : Regex :=
  .cat (Regex.plus (.cls emailLocalChar))
    (.cat (Regex.chr '@')
      (.cat (Regex.plus (.cls emailDomainChar))
        (.cat (Regex.chr '.') (Regex.repAtLeast (.cls emailTldChar) 2))))

/-- Python `\d` (ASCII fragment). -/
def digitChar (c : Char) : Bool := c.isDigit

/-- The class `[-.]`. -/
def dashDotChar (c : Char) : Bool := c == '-' || c == '.'

/-- The class `[-\s]`. -/
def dashSpaceChar (c : Char) : Bool := c == '-' || pyIsSpace c

def phoneRegex : Regex :=
  .cat (Regex.rep (.cls digitChar) 3)
    (.cat (Regex.opt (.cls dashDotChar))
      (.cat (Regex.rep (.cls digitChar) 3)
        (.cat (Regex.opt (.cls dashDotChar)) (Regex.rep (.cls digitChar) 4))))

def ssnRegex : Regex :=
  .cat (Regex.rep (.cls digitChar) 3)
    (.cat (Regex.chr '-')
      (.cat (Regex.rep (.cls digitChar) 2)
        (.cat (Regex.chr '-') (Regex.rep (.cls digitChar) 4))))

def creditCardRegex : Regex :=
  .cat (Regex.rep (.cls digitChar) 4)
    (.cat (Regex.opt (.cls dashSpaceChar))
      (.cat (Regex.rep (.cls digitChar) 4)
        (.cat (Regex.opt (.cls dashSpaceChar))
          (.cat (Regex.rep (.cls digitChar) 4)
            (.cat (Regex.opt (.cls dashSpaceChar)) (Regex.rep (.cls digitChar) 4))))))

/-- The `patterns` dict of `assert_no_pii`, in insertion order. -/
def piiPatterns : List (String × Regex) :=
  [("email", emailRegex), ("phone", phoneRegex),
   ("ssn", ssnRegex), ("credit_card", creditCardRegex)]

/-- `re.search(pattern, output)` for a `\b r \b` PII pattern. -/
def piiSearch (r : Regex) (output : String) : Bool :=
  searchWB r none output.data

/-- `assert_no_pii` (assertions.py lines 232-249).  Scans `output`
against every category; fails listing every category with a match.
(The enclosing quotes of the f-string are not reproduced in messages.) -/
def assert_no_pii (output : String) : Except String Unit :=
  let found_pii := (piiPatterns.filter (fun p => piiSearch p.2 output)).map (·.1)
  if found_pii.isEmpty then .ok ()
  else .error ("PII detected in output: " ++ joinComma found_pii ++
    "\nOutput: " ++ output)

end PraisonTest

namespace PraisonTest

/-! ### Word-overlap similarity (assertions.py lines 252-261, 10-53) -/

/-- `_calculate_similarity` (assertions.py lines 252-261).  Tokenize both
strings by whitespace into lowercased word sets; return
`|words1 ∩ words2| / |words2|`, or `0.0` when `words2` is empty.
Python `set`s are embedded as deduplicated lists. -/
def _calculate_similarity (str1 str2 : String) : ℚ :=
  let words1 := (pySplit (pyLower str1)).dedup
  let words2 := (pySplit (pyLower str2)).dedup
  if words2.isEmpty then 0
  else ((words1.filter (fun w => words2.contains w)).length : ℚ) / (words2.length : ℚ)

/-- `assert_agent_response` (assertions.py lines 10-53) specialized at
`mode = "similarity"`: since `"similarity" != "regex"`, both operands are
lowercased when `case_sensitive` is false, then the score is compared
against the fixed 0.8 threshold.  (The `:.2f` float formatting of the
score inside the f-string message is not reproduced.) -/
def assert_agent_response_similarity (output expected : String)
    (case_sensitive : Bool) : Except String Unit :=
  let output := if !case_sensitive then pyLower output else output
  let expected := if !case_sensitive then pyLower expected else expected
  let score := _calculate_similarity output expected
  if score >= 8/10 then .ok ()
  else .error ("Similarity score below 0.8\nOutput: " ++ output ++
    "\nExpected: " ++ expected)

/-- `assert_not_contains` (assertions.py lines 68-77). -/
def assert_not_contains (output unexpected : String)
    (case_sensitive : Bool) : Except String Unit :=
  let output := if !case_sensitive then pyLower output else output
  let unexpected := if !case_sensitive then pyLower unexpected else unexpected
  if !(strCont output unexpected) then .ok ()
  else .error ("Unexpected " ++ unexpected ++ " found in output.\nOutput: " ++ output)

/-! ### Hallucination grounding (assertions.py lines 199-229) -/

/-- Auxiliary for `sentenceSplit`: split on every single occurrence of
`.`, `!`, `?`.  The source splits with `re.split` on runs (`[.!?]+`);
splitting on single terminators instead yields extra empty pieces, all
of which the strip-and-discard step of `sentenceSplit` removes, so the
resulting sentence lists coincide. -/
def splitTermAux : List Char → List Char → List String
  | [], acc => [String.mk acc.reverse]
  | c :: cs, acc =>
    if c == '.' || c == '!' || c == '?' then
      String.mk acc.reverse :: splitTermAux cs []
    else splitTermAux cs (c :: acc)

/-- assertions.py lines 209-210: split into sentences, strip each, and
discard the empty ones. -/
def sentenceSplit (output : String) : List String :=
  ((splitTermAux output.data []).map pyStrip).filter (fun s => !s.isEmpty)

/-- assertions.py lines 213-221: a sentence is grounded iff for some
source document, strictly more than half of the sentence's lowercased
words occur in that document's lowercased word set.  (Every sentence
produced by `sentenceSplit` has at least one word, so the division is
never 0/0 on reachable inputs.) -/
def sentenceGrounded (source_docs : List String) (sentence : String) : Bool :=
  let words := (pySplit (pyLower sentence)).dedup
  source_docs.any (fun doc =>
    let doc_words := pySplit (pyLower doc)
    ((words.filter (fun w => doc_words.contains w)).length : ℚ) / (words.length : ℚ) > 1/2)

/-- `assert_no_hallucination` (assertions.py lines 199-229). -/
def assert_no_hallucination (output : String) (source_docs : List String)
    (threshold : ℚ) : Except String Unit :=
  let sentences := sentenceSplit output
  let grounded_count := (sentences.filter (fun s => sentenceGrounded source_docs s)).length
  let grounding_ratio : ℚ :=
    if sentences.isEmpty then 0
    else (grounded_count : ℚ) / (sentences.length : ℚ)
  if grounding_ratio >= threshold then .ok ()
  else .error ("Grounding ratio below threshold.\nOutput may contain hallucinations.\nOutput: "
    ++ output)

end PraisonTest

namespace PraisonTest

/-! ### JSON validation (assertions.py lines 80-95, 264-289)

JSON values as produced by `json.loads` (numbers arrive as `int` or
`float`); schemas are the dictionaries `_validate_schema` inspects,
restricted to the three keys it reads. -/

inductive JValue where
  | null : JValue
  | bool (b : Bool) : JValue
  | int (n : Int) : JValue
  | float (q : ℚ) : JValue
  | str (s : String) : JValue
  | arr (items : List JValue) : JValue
  | obj (fields : List (String × JValue)) : JValue

/-- A schema dictionary: the `"type"`, `"properties"` and `"required"`
keys, each possibly absent. -/
inductive Schema where
  | mk (ty : Option String) (properties : Option (List (String × Schema)))
      (required : Option (List String)) : Schema

/-- Python `type(data).__name__` for the embedded JSON values. -/
def JValue.pyTypeName : JValue → String
  | .null => "NoneType"
  | .bool _ => "bool"
  | .int _ => "int"
  | .float _ => "float"
  | .str _ => "str"
  | .arr _ => "list"
  | .obj _ => "dict"

/-- The keys of `type_map` (assertions.py lines 268-276). -/
def typeMapNames : List String :=
  ["object", "array", "string", "number", "integer", "boolean", "null"]

/-- `isinstance(data, type_map[t])`.  Python's `bool` is a subclass of
`int`, so booleans satisfy the `integer` and `number` checks. -/
def typeMatch : String → JValue → Bool
  | "object", .obj _ => true
  | "array", .arr _ => true
  | "string", .str _ => true
  | "number", .int _ => true
  | "number", .float _ => true
  | "number", .bool _ => true
  | "integer", .int _ => true
  | "integer", .bool _ => true
  | "boolean", .bool _ => true
  | "null", .null => true
  | _, _ => false

mutual

/-- `_validate_schema` (assertions.py lines 264-289): check `type` if
present and in `type_map`, then walk `properties` (when the data is an
object); the first failing `assert` aborts with its message. -/
def _validate_schema : JValue → Schema → Except String Unit
  | data, .mk ty props req =>
    match ((match ty with
            | some t =>
              if typeMapNames.contains t && !(typeMatch t data) then
                .error ("Expected type " ++ t ++ ", got " ++ data.pyTypeName)
              else .ok ()
            | none => .ok ()) : Except String Unit) with
    | .error e => .error e
    | .ok _ =>
      match props, data with
      | some ps, .obj fields => validateProps fields req ps
      | _, _ => .ok ()

/-- The `for key, value_schema in schema["properties"].items()` loop of
`_validate_schema`: for each listed property, first the required-and-
missing check, then recursion into the value when present; the first
raise aborts the loop. -/
def validateProps (fields : List (String × JValue)) (req : Option (List String)) :
    List (String × Schema) → Except String Unit
  | [] => .ok ()
  | (key, vschema) :: rest =>
    if (match req with | some r => r.contains key | none => false) &&
        (fields.lookup key).isNone then
      .error ("Required property " ++ key ++ " missing")
    else
      match ((match fields.lookup key with
              | some v => _validate_schema v vschema
              | none => .ok ()) : Except String Unit) with
      | .error e => .error e
      | .ok _ => validateProps fields req rest

end

/-- `assert_json_valid` (assertions.py lines 80-95).  `json.loads` is
Python-stdlib parsing, abstracted as the `loads` argument; on parse
failure the raised message embeds the parser's error text.  The source
guard `if schema:` skips validation for a `None` schema (an empty dict
is also falsy in Python, but an empty schema validates trivially, so
the observable behavior agrees). -/
def assert_json_valid (loads : String → Except String JValue) (output : String)
    (schema : Option Schema) : Except String Unit :=
  match loads output with
  | .error e => .error ("Output is not valid JSON: " ++ e)
  | .ok data =>
    match schema with
    | some s => _validate_schema data s
    | none => .ok ()

end PraisonTest

namespace PraisonTest

/-! ### The mock LLM (mocks.py)

`MockLLM` state and its operations, with Python mutation embedded as
explicit state passing: `get_response` returns the updated state
together with either the chosen response or a propagated exception. -/

/-- A keyword-argument bag (`**kwargs`), embedded as an association list
of string keys and string values. -/
abbrev KwArgs := List (String × String)

/-- A value reaching `get_response` as `prompt`.  The annotation says
`str`, but the `OpenAIMock` adapter forwards whatever the message's
`content` field holds, which may also be a list of content-part
dictionaries (each a dict embedded as an association list). -/
inductive Content where
  | str (s : String) : Content
  | parts (l : List (List (String × String))) : Content
deriving DecidableEq

/-- One `call_history` entry (mocks.py lines 71-74): the prompt and the
keyword arguments of one `get_response` invocation. -/
structure CallRecord where
  prompt : Content
  kwargs : KwArgs
deriving DecidableEq

/-- `MockResponse` (mocks.py lines 11-24).  The float fields `cost` and
`latency` are embedded as rationals; `metadata` (`None` → `{}` in
`__post_init__`) as an association list. -/
structure MockResponse where
  content : String
  model : String := "gpt-4"
  tokens_used : Nat := 100
  cost : ℚ := 1/100
  latency : ℚ := 1/2
  metadata : List (String × String) := []
deriving DecidableEq

/-- A `Union[str, MockResponse]` argument. -/
inductive StrOrResp where
  | str (s : String) : StrOrResp
  | resp (r : MockResponse) : StrOrResp

/-- The `if isinstance(response, str): response = MockResponse(content=response)`
normalization shared by all registration methods. -/
def StrOrResp.toResponse : StrOrResp → MockResponse
  | .str s => { content := s }
  | .resp r => r

/-- One entry of `self.responses` (mocks.py line 40): the tuple
`(pattern/exact/callable, response, is_pattern-tag)`, embedded as a sum
over the three tag values (`False` = exact, `True` = compiled pattern,
`"function"` = callable).  A callable may raise: it returns
`Except String Bool`. -/
inductive Matcher where
  | exact (key : String) : Matcher
  | pattern (re : Regex) : Matcher
  | fn (f : Content → KwArgs → Except String Bool) : Matcher

/-- `self.default_response`: initially the plain string "Mock response",
a `MockResponse` once `set_default_response` has run. -/
inductive DefaultResp where
  | str (s : String) : DefaultResp
  | resp (r : MockResponse) : DefaultResp

/-- `MockLLM` state (mocks.py lines 39-42). -/
structure MockLLM where
  responses : List (Matcher × MockResponse)
  call_history : List CallRecord
  default_response : DefaultResp

/-- `MockLLM.__init__`. -/
def MockLLM.init : MockLLM :=
  { responses := [], call_history := [], default_response := .str "Mock response" }

/-- `add_response` (mocks.py lines 44-48). -/
def MockLLM.add_response (m : MockLLM) (prompt : String) (response : StrOrResp) : MockLLM :=
  { m with responses := m.responses ++ [(.exact prompt, response.toResponse)] }

/-- `add_pattern` (mocks.py lines 50-55); the `re.compile` step is
embedded as receiving the compiled regex. -/
def MockLLM.add_pattern (m : MockLLM) (re : Regex) (response : StrOrResp) : MockLLM :=
  { m with responses := m.responses ++ [(.pattern re, response.toResponse)] }

/-- `add_function_response` (mocks.py lines 57-61). -/
def MockLLM.add_function_response (m : MockLLM)
    (matcher : Content → KwArgs → Except String Bool) (response : StrOrResp) : MockLLM :=
  { m with responses := m.responses ++ [(.fn matcher, response.toResponse)] }

/-- `set_default_response` (mocks.py lines 63-67). -/
def MockLLM.set_default_response (m : MockLLM) (response : StrOrResp) : MockLLM :=
  { m with default_response := .resp response.toResponse }

/-- One iteration test of the matcher loop (mocks.py lines 77-86).
An exact matcher compares `prompt == matcher` (false for list-valued
prompts); a pattern matcher calls `matcher.match(prompt)`, which is
anchored at position 0 and raises `TypeError` on a non-string prompt;
a function matcher calls `matcher(prompt, **kwargs)`, whose exceptions
propagate. -/
def Matcher.tryMatch : Matcher → Content → KwArgs → Except String Bool
  | .exact key, .str s, _ => .ok (s == key)
  | .exact _, .parts _, _ => .ok false
  | .pattern re, .str s, _ => .ok (re.matchLead s.data)
  | .pattern _, .parts _, _ => .error "TypeError: expected string or bytes-like object"
  | .fn f, p, kw => f p kw

/-- The `for matcher, response, match_type in self.responses` loop:
`some` result means the loop ended early (with a chosen response or a
propagated exception), `none` means it fell through. -/
def scanResponses (prompt : Content) (kwargs : KwArgs) :
    List (Matcher × MockResponse) → Option (Except String MockResponse)
  | [] => none
  | (mt, r) :: rest =>
    match mt.tryMatch prompt kwargs with
    | .error e => some (.error e)
    | .ok true => some (.ok r)
    | .ok false => scanResponses prompt kwargs rest

/-- mocks.py lines 88-91: a string default is wrapped on the way out. -/
def DefaultResp.toResponse : DefaultResp → MockResponse
  | .str s => { content := s }
  | .resp r => r

/-- `get_response` (mocks.py lines 69-91): append the call record, then
scan the matchers in registration order; fall through to the default
response.  The updated state is returned even when a matcher raises,
because the history was mutated before the loop ran. -/
def MockLLM.get_response (m : MockLLM) (prompt : Content) (kwargs : KwArgs) :
    MockLLM × Except String MockResponse :=
  let m' := { m with call_history := m.call_history ++ [{ prompt := prompt, kwargs := kwargs }] }
  match scanResponses prompt kwargs m.responses with
  | some result => (m', result)
  | none => (m', .ok m.default_response.toResponse)

/-- `get_call_count` (mocks.py lines 93-95). -/
def MockLLM.get_call_count (m : MockLLM) : Nat :=
  m.call_history.length

/-- `get_last_call` (mocks.py lines 97-99). -/
def MockLLM.get_last_call (m : MockLLM) : Option CallRecord :=
  m.call_history.getLast?

/-- `reset` (mocks.py lines 101-103). -/
def MockLLM.reset (m : MockLLM) : MockLLM :=
  { m with call_history := [] }

end PraisonTest

namespace PraisonTest

/-! ### Provider adapters (mocks.py lines 116-199)

Only the prompt extraction and the `get_response` call are modelled;
the reshaping of the returned `MockResponse` into provider-flavoured
response objects carries no logic the claims touch. -/

/-- One element of the `messages` list: a dict read through
`msg.get("role")` and `msg.get("content", "")`. -/
structure Message where
  role : Option String
  content : Option Content

/-- The shared `for msg in reversed(messages): if msg.get("role") == "user"`
loop: the last message whose role is `"user"`. -/
def lastUserMessage (messages : List Message) : Option Message :=
  messages.reverse.find? (fun msg => msg.role == some "user")

/-- `OpenAIMock.Chat.Completions.create` (mocks.py lines 132-141):
forwards the last user message's content verbatim — list-valued content
is not joined — and passes the kwargs through. -/
def OpenAIMock.create (m : MockLLM) (messages : List Message) (kwargs : KwArgs) :
    MockLLM × Except String MockResponse :=
  let user_message : Content :=
    match lastUserMessage messages with
    | some msg => msg.content.getD (.str "")
    | none => .str ""
  m.get_response user_message kwargs

/-- The `" ".join([c.get("text", "") for c in content])` step of
`AnthropicMock.Messages.create`. -/
def joinTextParts (l : List (List (String × String))) : String :=
  String.intercalate " " (l.map (fun c => (c.lookup "text").getD ""))

/-- `AnthropicMock.Messages.create` (mocks.py lines 174-187): like the
OpenAI adapter, but list-valued content is joined into a single string
from the parts' `text` fields, separated by single spaces. -/
def AnthropicMock.create (m : MockLLM) (messages : List Message) (kwargs : KwArgs) :
    MockLLM × Except String MockResponse :=
  let user_message : Content :=
    match lastUserMessage messages with
    | some msg =>
      match msg.content.getD (.str "") with
      | .parts l => .str (joinTextParts l)
      | .str s => .str s
    | none => .str ""
  m.get_response user_message kwargs

end PraisonTest

namespace PraisonTest

/-! ### Basic lemmas about the string helpers -/

/-- The empty list occurs in every list (Python: `"" in s` is `True`). -/
theorem occursIn_nil (h : List Char) : occursIn [] h = true := by
  cases h <;> simp [occursIn, leadsList]

/-- A list is an initial segment of itself followed by anything. -/
theorem leadsList_self_append (n t : List Char) : leadsList n (n ++ t) = true := by
  induction n with
  | nil => simp [leadsList]
  | cons a as ih => simp [leadsList, ih]

/-- Any explicitly decomposed occurrence makes `occursIn` true. -/
theorem occursIn_of_parts (n pre post : List Char) :
    occursIn n (pre ++ n ++ post) = true := by
  induction pre with
  | nil =>
    cases n with
    | nil => simpa using occursIn_nil post
    | cons a as =>
      have h : occursIn (a :: as) ((a :: as) ++ post)
          = (leadsList (a :: as) ((a :: as) ++ post) || occursIn (a :: as) (as ++ post)) := rfl
      have h2 := leadsList_self_append (a :: as) post
      show occursIn (a :: as) ((a :: as) ++ post) = true
      rw [h, h2]
      simp
  | cons c cs ih =>
    have h : occursIn n ((c :: cs) ++ n ++ post)
        = (leadsList n ((c :: cs) ++ n ++ post) || occursIn n (cs ++ n ++ post)) := rfl
    rw [h, ih]
    simp

end PraisonTest

namespace PraisonTest

/-- C4: every invocation of `get_response` appends exactly one
`CallRecord` holding the prompt and the keyword arguments, so
`get_call_count` grows by exactly one per call — unconditionally, hence
in particular when the call falls through to the default response and
when a matcher raises (the record is appended before the matcher scan). -/
theorem resolve_records_every_call (m : MockLLM) (prompt : Content) (kwargs : KwArgs) :
    (m.get_response prompt kwargs).1.call_history
      = m.call_history ++ [{ prompt := prompt, kwargs := kwargs }]
    ∧ (m.get_response prompt kwargs).1.get_call_count = m.get_call_count + 1 := by
  unfold MockLLM.get_response
  cases h : scanResponses prompt kwargs m.responses <;>
    simp [MockLLM.get_call_count]

/-- C6: `reset` empties the call history (so `get_call_count` becomes 0)
and leaves the registered matchers and the default response unchanged. -/
theorem reset_clears_only_history (m : MockLLM) :
    m.reset.get_call_count = 0 ∧ m.reset.responses = m.responses
      ∧ m.reset.default_response = m.default_response := by
  simp [MockLLM.reset, MockLLM.get_call_count]

/-- C10: `assert_not_contains` with an empty `unexpected` string always
raises, for every output and either value of `case_sensitive`, because
the empty string is a substring of every string. -/
theorem not_contains_empty_raises (output : String) (case_sensitive : Bool) :
    ∃ e, assert_not_contains output "" case_sensitive = .error e := by
  cases case_sensitive <;>
    simp [assert_not_contains, strCont, pyLower, occursIn_nil]

end PraisonTest

namespace PraisonTest

/-- `re.match` (anchored) characterization: `matchLead` succeeds iff the
regex exactly matches some initial segment of the input. -/
theorem matchLead_iff (cs : List Char) (r : Regex) :
    r.matchLead cs = true ↔ ∃ p q, cs = p ++ q ∧ r.matchList p = true := by
  induction cs generalizing r with
  | nil =>
    constructor
    · intro h
      exact ⟨[], [], rfl, h⟩
    · rintro ⟨p, q, hpq, hm⟩
      rcases List.append_eq_nil.mp hpq.symm with ⟨rfl, rfl⟩
      exact hm
  | cons c cs ih =>
    show (r.nullable || Regex.matchLead (r.deriv c) cs) = true ↔ _
    rw [Bool.or_eq_true, ih]
    constructor
    · rintro (hn | ⟨p, q, rfl, hm⟩)
      · exact ⟨[], c :: cs, rfl, hn⟩
      · exact ⟨c :: p, q, rfl, hm⟩
    · rintro ⟨p, q, hpq, hm⟩
      cases p with
      | nil =>
        left
        exact hm
      | cons a as =>
        right
        injection hpq with h1 h2
        subst h1
        exact ⟨as, q, h2, hm⟩

/-- C5: a Pattern matcher is satisfied iff its regex matches an initial
segment of the prompt (anchored at position 0): the matcher test is
exactly `matchLead`, `matchLead` means matching from position 0, a
single-pattern resolver returns the pattern's response iff the anchored
match succeeds, and concretely `abc` inside `xxabc` (present only at
position 2) does not satisfy the matcher, while literal characters are
case-sensitive (`a` does not match `A`). -/
theorem pattern_matcher_anchored :
    (∀ (re : Regex) (s : String) (kwargs : KwArgs),
       (Matcher.pattern re).tryMatch (.str s) kwargs = .ok (re.matchLead s.data)
       ∧ (re.matchLead s.data = true ↔ ∃ p q, s.data = p ++ q ∧ re.matchList p = true))
    ∧ (∀ (re : Regex) (resp : MockResponse) (d : DefaultResp) (s : String) (kwargs : KwArgs),
       ((MockLLM.mk [(.pattern re, resp)] [] d).get_response (.str s) kwargs).2
         = .ok (if re.matchLead s.data then resp else d.toResponse))
    ∧ (Regex.cat (Regex.chr 'a') (Regex.cat (Regex.chr 'b') (Regex.chr 'c'))).matchLead
        "xxabc".data = false
    ∧ occursIn "abc".data "xxabc".data = true
    ∧ (Regex.chr 'a').matchLead "A".data = false := by
  refine ⟨fun re s kwargs => ⟨rfl, matchLead_iff _ _⟩, fun re resp d s kwargs => ?_,
    by decide, by decide, by decide⟩
  cases h : re.matchLead s.data <;>
    simp [MockLLM.get_response, scanResponses, Matcher.tryMatch, h]

end PraisonTest

namespace PraisonTest

/-- Is this registered entry satisfied by the prompt (its matcher test
returns `True` without raising)? -/
def entrySat (prompt : Content) (kwargs : KwArgs) (e : Matcher × MockResponse) : Bool :=
  match e.1.tryMatch prompt kwargs with
  | .ok true => true
  | _ => false

/-- When no matcher raises, the scan loop returns the first satisfied
entry, `List.find?`-style. -/
theorem scanResponses_eq_find (prompt : Content) (kwargs : KwArgs) :
    ∀ l : List (Matcher × MockResponse),
      (∀ e ∈ l, ∃ b, e.1.tryMatch prompt kwargs = .ok b) →
      scanResponses prompt kwargs l
        = (l.find? (entrySat prompt kwargs)).map (fun e => .ok e.2) := by
  intro l
  induction l with
  | nil => intro _; rfl
  | cons e rest ih =>
    intro H
    obtain ⟨b, hb⟩ := H e (List.mem_cons_self e rest)
    obtain ⟨mt, r⟩ := e
    cases b with
    | true =>
      simp only [scanResponses, hb, List.find?]
      have hsat : entrySat prompt kwargs (mt, r) = true := by
        simp [entrySat, hb]
      rw [hsat]
      rfl
    | false =>
      simp only [scanResponses, hb, List.find?]
      have hsat : entrySat prompt kwargs (mt, r) = false := by
        simp [entrySat, hb]
      rw [hsat]
      exact ih (fun e he => H e (List.mem_cons_of_mem _ he))

/-- `find?` returns the element at the first satisfying index. -/
theorem find?_of_first {α : Type} (p : α → Bool) (l : List α) (i : Nat) (hi : i < l.length)
    (hsat : p (l.get ⟨i, hi⟩) = true)
    (hmin : ∀ j (hj : j < i), p (l.get ⟨j, Nat.lt_trans hj hi⟩) = false) :
    l.find? p = some (l.get ⟨i, hi⟩) := by
  induction l generalizing i with
  | nil => exact absurd hi (Nat.not_lt_zero i)
  | cons a t ih =>
    cases i with
    | zero =>
      simp only [List.get] at hsat
      simp [List.find?, hsat]
    | succ n =>
      have h0 : p a = false := hmin 0 (Nat.succ_pos n)
      simp only [List.find?, h0]
      have hn : n < t.length := Nat.lt_of_succ_lt_succ hi
      exact ih n hn hsat (fun j hj => hmin (j + 1) (Nat.succ_lt_succ hj))

/-- C1: when no registered matcher raises on the prompt, `get_response`
returns the response of the first satisfied matcher in registration
order, and the current default response when none is satisfied; in
particular, if the matcher at index `i` is satisfied and no earlier one
is, its response is returned (so of two satisfied matchers, the
first-registered wins). -/
theorem resolve_first_satisfied (m : MockLLM) (prompt : Content) (kwargs : KwArgs)
    (H : ∀ e ∈ m.responses, ∃ b, e.1.tryMatch prompt kwargs = .ok b) :
    (m.get_response prompt kwargs).2
      = .ok (match m.responses.find? (entrySat prompt kwargs) with
             | some e => e.2
             | none => m.default_response.toResponse)
    ∧ ∀ i (hi : i < m.responses.length),
        entrySat prompt kwargs (m.responses.get ⟨i, hi⟩) = true →
        (∀ j (hj : j < i), entrySat prompt kwargs (m.responses.get ⟨j, Nat.lt_trans hj hi⟩) = false) →
        (m.get_response prompt kwargs).2 = .ok (m.responses.get ⟨i, hi⟩).2 := by
  have hscan := scanResponses_eq_find prompt kwargs m.responses H
  have hmain : (m.get_response prompt kwargs).2
      = .ok (match m.responses.find? (entrySat prompt kwargs) with
             | some e => e.2
             | none => m.default_response.toResponse) := by
    unfold MockLLM.get_response
    rw [hscan]
    cases m.responses.find? (entrySat prompt kwargs) <;> rfl
  refine ⟨hmain, fun i hi hsat hmin => ?_⟩
  rw [hmain, find?_of_first (entrySat prompt kwargs) m.responses i hi hsat hmin]

/-- Witness for C1: two universally-matching pattern matchers
registered in order A then B; resolving returns A. -/
theorem resolve_first_satisfied_witness :
    (((MockLLM.init.add_pattern (Regex.star (Regex.cls (fun _ => true))) (.str "A")).add_pattern
        (Regex.star (Regex.cls (fun _ => true))) (.str "B")).get_response
      (.str "this is a test") []).2 = .ok { content := "A" } := by
  have h := resolve_first_satisfied
    ((MockLLM.init.add_pattern (Regex.star (Regex.cls (fun _ => true))) (.str "A")).add_pattern
        (Regex.star (Regex.cls (fun _ => true))) (.str "B"))
    (.str "this is a test") []
    (by
      intro e he
      simp [MockLLM.init, MockLLM.add_pattern] at he
      rcases he with rfl | rfl <;> exact ⟨_, rfl⟩)
  rw [h.1]
  rfl

end PraisonTest

namespace PraisonTest

/-! ### Lemmas for the word-set similarity arithmetic -/

theorem char_toNat_ofNat (n : Nat) (h : n.isValidChar) : (Char.ofNat n).toNat = n := by
  simp [Char.ofNat, h, Char.ofNatAux, Char.toNat, UInt32.toNat, BitVec.toNat_ofNatLt]

theorem toLower_toLower (c : Char) : c.toLower.toLower = c.toLower := by
  by_cases h : c.toNat ≥ 65 ∧ c.toNat ≤ 90
  · have hval : (c.toNat + 32).isValidChar := Or.inl (by omega)
    have hv : (Char.ofNat (c.toNat + 32)).toNat = c.toNat + 32 := char_toNat_ofNat _ hval
    have h1 : c.toLower = Char.ofNat (c.toNat + 32) := by
      show (if c.toNat ≥ 65 ∧ c.toNat ≤ 90 then Char.ofNat (c.toNat + 32) else c) = _
      exact if_pos h
    have h2 : ¬((Char.ofNat (c.toNat + 32)).toNat ≥ 65 ∧ (Char.ofNat (c.toNat + 32)).toNat ≤ 90) := by
      rw [hv]
      omega
    rw [h1]
    show (if (Char.ofNat (c.toNat + 32)).toNat ≥ 65 ∧ (Char.ofNat (c.toNat + 32)).toNat ≤ 90
          then Char.ofNat ((Char.ofNat (c.toNat + 32)).toNat + 32) else Char.ofNat (c.toNat + 32)) = _
    exact if_neg h2
  · have h1 : c.toLower = c := by
      show (if c.toNat ≥ 65 ∧ c.toNat ≤ 90 then Char.ofNat (c.toNat + 32) else c) = _
      exact if_neg h
    rw [h1]
    exact h1

theorem pyLower_idem (s : String) : pyLower (pyLower s) = pyLower s := by
  unfold pyLower
  congr 1
  show (s.data.map Char.toLower).map Char.toLower = s.data.map Char.toLower
  generalize s.data = l
  induction l with
  | nil => rfl
  | cons c cs ih => simp [List.map_cons, ih, toLower_toLower]

/-- The word set of a string: whitespace-tokenized, lowercased. -/
def wordSetSpec (s : String) : Finset String := (pySplit (pyLower s)).toFinset

/-- The implementation's overlap count (filter over deduplicated lists)
is the cardinality of the word-set intersection. -/
theorem inter_card_eq (l1 l2 : List String) :
    (l1.dedup.filter (fun w => l2.dedup.contains w)).length
      = (l1.toFinset ∩ l2.toFinset).card := by
  have hnd : (l1.dedup.filter (fun w => l2.dedup.contains w)).Nodup :=
    (List.nodup_dedup l1).filter _
  rw [← List.toFinset_card_of_nodup hnd]
  congr 1
  ext a
  simp [List.mem_filter, List.mem_dedup]

end PraisonTest

/-- Decidable equality of `Except` results, for concrete evaluations. -/
instance exceptDecEq {e a : Type} [DecidableEq e] [DecidableEq a] :
    DecidableEq (Except e a) := fun x y =>
  match x, y with
  | .ok u, .ok v =>
    if h : u = v then isTrue (by rw [h]) else isFalse (by intro hc; cases hc; exact h rfl)
  | .error u, .error v =>
    if h : u = v then isTrue (by rw [h]) else isFalse (by intro hc; cases hc; exact h rfl)
  | .ok _, .error _ => isFalse (by intro hc; cases hc)
  | .error _, .ok _ => isFalse (by intro hc; cases hc)

namespace PraisonTest

/-- C2, counterexample: with an empty `expected` string the expected
word set is empty, but the computed score is `0.0`, not an automatic
pass: the similarity assertion raises. -/
theorem similarity_empty_expected_raises :
    _calculate_similarity "hello" "" = 0
    ∧ assert_agent_response_similarity "hello" "" false
        = .error "Similarity score below 0.8\nOutput: hello\nExpected: " := by
  constructor
  · rfl
  · have hzero' : _calculate_similarity (pyLower "hello") (pyLower "") = 0 := rfl
    simp only [assert_agent_response_similarity, Bool.not_false, if_true, hzero']
    rw [if_neg (by norm_num)]
    rfl

/-- C2 (amended): the similarity score is
`|outputWords ∩ expectedWords| / |expectedWords|` over lowercased
whitespace-tokenized word sets; when the expected word set is empty the
score is `0.0`, so the similarity assertion raises (0 < 0.8) instead of
passing automatically. -/
theorem similarity_score_spec (s1 s2 : String) :
    (wordSetSpec s2 ≠ ∅ →
      _calculate_similarity s1 s2
        = ((wordSetSpec s1 ∩ wordSetSpec s2).card : ℚ) / ((wordSetSpec s2).card : ℚ))
    ∧ (wordSetSpec s2 = ∅ →
      _calculate_similarity s1 s2 = 0
      ∧ ∀ case_sensitive : Bool,
          ∃ e, assert_agent_response_similarity s1 s2 case_sensitive = .error e) := by
  constructor
  · intro hne
    have hsplit : pySplit (pyLower s2) ≠ [] := by
      intro h
      apply hne
      unfold wordSetSpec
      rw [h]
      rfl
    have hdne : ¬((pySplit (pyLower s2)).dedup.isEmpty = true) := by
      rw [List.isEmpty_iff, List.dedup_eq_nil]
      exact hsplit
    simp only [_calculate_similarity]
    rw [if_neg hdne, inter_card_eq]
    unfold wordSetSpec
    rw [← List.card_toFinset]
  · intro hempty
    have hsplit : pySplit (pyLower s2) = [] := by
      have h := hempty
      unfold wordSetSpec at h
      rwa [List.toFinset_eq_empty_iff] at h
    have hzero : _calculate_similarity s1 s2 = 0 := by
      simp [_calculate_similarity, hsplit]
    refine ⟨hzero, fun cs => ?_⟩
    cases cs with
    | true =>
      refine ⟨"Similarity score below 0.8\nOutput: " ++ s1 ++ "\nExpected: " ++ s2, ?_⟩
      simp only [assert_agent_response_similarity, Bool.not_true, Bool.false_eq_true,
        if_false, hzero]
      rw [if_neg (by norm_num)]
    | false =>
      have hzero' : _calculate_similarity (pyLower s1) (pyLower s2) = 0 := by
        have h2 : pySplit (pyLower (pyLower s2)) = [] := by
          rw [pyLower_idem]
          exact hsplit
        simp [_calculate_similarity, h2]
      refine ⟨"Similarity score below 0.8\nOutput: " ++ pyLower s1 ++ "\nExpected: "
        ++ pyLower s2, ?_⟩
      simp only [assert_agent_response_similarity, Bool.not_false, if_true, hzero']
      rw [if_neg (by norm_num)]

/-- Witness for C2: a full-overlap pair gets score `2/2`, and an
all-whitespace expected string makes the assertion raise. -/
theorem similarity_score_spec_witness :
    _calculate_similarity "the quick fox" "quick fox"
      = ((wordSetSpec "the quick fox" ∩ wordSetSpec "quick fox").card : ℚ)
        / ((wordSetSpec "quick fox").card : ℚ)
    ∧ (∃ e, assert_agent_response_similarity "hi" "   " false = .error e) :=
  ⟨(similarity_score_spec "the quick fox" "quick fox").1 (by decide),
   ((similarity_score_spec "hi" "   ").2 (by rfl)).2 false⟩

end PraisonTest

namespace PraisonTest

/-! ### Lemmas for the hallucination-grounding arithmetic -/

/-- Variant of `inter_card_eq` for a non-deduplicated right-hand list
(membership is unaffected by deduplication). -/
theorem inter_card_eq' (l1 l2 : List String) :
    (l1.dedup.filter (fun w => l2.contains w)).length
      = (l1.toFinset ∩ l2.toFinset).card := by
  have hnd : (l1.dedup.filter (fun w => l2.contains w)).Nodup :=
    (List.nodup_dedup l1).filter _
  rw [← List.toFinset_card_of_nodup hnd]
  congr 1
  ext a
  simp [List.mem_filter, List.mem_dedup]

/-- The rational comparison `a/b > 1/2` over natural counts with
`a ≤ b` is the integer comparison `b < 2a` (Lean's `0/0 = 0` agrees
with both sides being false at `b = 0`). -/
theorem div_gt_half_iff (a b : Nat) (hab : a ≤ b) :
    ((a : ℚ) / (b : ℚ) > 1/2) ↔ (b < 2 * a) := by
  rcases Nat.eq_zero_or_pos b with hb | hb
  · subst hb
    have ha : a = 0 := Nat.le_zero.mp hab
    subst ha
    norm_num
  · have hbq : (0 : ℚ) < b := by exact_mod_cast hb
    rw [gt_iff_lt, lt_div_iff₀ hbq]
    constructor
    · intro h
      have h2 : (b : ℚ) < 2 * a := by linarith
      exact_mod_cast h2
    · intro h
      have h2 : (b : ℚ) < 2 * a := by exact_mod_cast h
      linarith

/-- Spec-side groundedness: some source document's word set covers
strictly more than half of the sentence's word set. -/
def groundedSpec (docs : List String) (sent : String) : Prop :=
  ∃ doc ∈ docs, (wordSetSpec sent).card < 2 * ((wordSetSpec sent ∩ wordSetSpec doc)).card

/-- The implementation's per-sentence grounding test coincides with the
word-set majority-overlap characterization. -/
theorem sentenceGrounded_iff (docs : List String) (sent : String) :
    sentenceGrounded docs sent = true ↔ groundedSpec docs sent := by
  simp only [sentenceGrounded, groundedSpec, List.any_eq_true, decide_eq_true_iff]
  apply exists_congr
  intro doc
  apply and_congr_right
  intro _
  rw [div_gt_half_iff _ _ (List.length_filter_le _ _), inter_card_eq']
  unfold wordSetSpec
  rw [← List.card_toFinset]

/-- C3: with zero sentences the grounding ratio is 0, so the assertion
raises whenever `0 < threshold`; with at least one sentence it passes
iff `groundedCount / totalCount ≥ threshold`; and a sentence is
grounded iff some source document's lowercased word set contains more
than half of the sentence's lowercased words. -/
theorem no_hallucination_spec (output : String) (source_docs : List String) (threshold : ℚ) :
    (sentenceSplit output = [] → 0 < threshold →
      assert_no_hallucination output source_docs threshold
        = .error ("Grounding ratio below threshold.\nOutput may contain hallucinations.\nOutput: "
            ++ output))
    ∧ (sentenceSplit output ≠ [] →
      (assert_no_hallucination output source_docs threshold = .ok ()
        ↔ threshold * ((sentenceSplit output).length : ℚ)
            ≤ (((sentenceSplit output).filter (fun s => sentenceGrounded source_docs s)).length : ℚ)))
    ∧ (∀ s, sentenceGrounded source_docs s = true ↔ groundedSpec source_docs s) := by
  refine ⟨?_, ?_, fun s => sentenceGrounded_iff source_docs s⟩
  · intro h ht
    simp only [assert_no_hallucination, h, List.isEmpty_nil, if_true]
    rw [if_neg]
    intro hc
    have hc2 : threshold ≤ 0 := hc
    linarith
  · intro hne
    have hlen : 0 < (sentenceSplit output).length := List.length_pos.mpr hne
    have hlenq : (0 : ℚ) < ((sentenceSplit output).length : ℚ) := by exact_mod_cast hlen
    have hie : (sentenceSplit output).isEmpty = false := by
      rw [Bool.eq_false_iff]
      intro h
      exact hne (List.isEmpty_iff.mp h)
    simp only [assert_no_hallucination, hie, Bool.false_eq_true, if_false]
    have hiff : ((((sentenceSplit output).filter (fun s => sentenceGrounded source_docs s)).length : ℚ)
          / ((sentenceSplit output).length : ℚ) ≥ threshold)
        ↔ threshold * ((sentenceSplit output).length : ℚ)
            ≤ (((sentenceSplit output).filter (fun s => sentenceGrounded source_docs s)).length : ℚ) := by
      rw [ge_iff_le, le_div_iff₀ hlenq]
    rw [← hiff]
    split_ifs with hc <;> simp [hc]

/-- Witness for C3: the whitespace-only output fails at threshold 0.7,
and a fully grounded one-sentence output passes. -/
theorem no_hallucination_spec_witness :
    assert_no_hallucination "   " [] (7/10)
      = .error "Grounding ratio below threshold.\nOutput may contain hallucinations.\nOutput:    "
    ∧ assert_no_hallucination "The sky is blue." ["the sky is blue today"] (7/10) = .ok () := by
  constructor
  · exact (no_hallucination_spec "   " [] (7/10)).1 (by decide) (by norm_num)
  · have hs : sentenceSplit "The sky is blue." = ["The sky is blue"] := by decide
    have hg : sentenceGrounded ["the sky is blue today"] "The sky is blue" = true :=
      (sentenceGrounded_iff _ _).mpr (by unfold groundedSpec; decide)
    refine ((no_hallucination_spec "The sky is blue." ["the sky is blue today"] (7/10)).2.1
      (by decide)).mpr ?_
    rw [hs]
    simp [List.filter_cons, hg]
    norm_num

end PraisonTest

namespace PraisonTest

/-- Every member of a comma-joined list occurs contiguously in the
joined string. -/
theorem joinComma_mem_parts (x : String) (names : List String) (hx : x ∈ names) :
    ∃ pre post, (joinComma names).data = pre ++ x.data ++ post := by
  induction names with
  | nil => cases hx
  | cons a rest ih =>
    cases rest with
    | nil =>
      rcases List.mem_singleton.mp hx with rfl
      exact ⟨[], [], by simp [joinComma]⟩
    | cons b tl =>
      rcases List.mem_cons.mp hx with rfl | hmem
      · refine ⟨[], (", " ++ joinComma (b :: tl)).data, ?_⟩
        show (x ++ ", " ++ joinComma (b :: tl)).data = _
        simp
      · obtain ⟨pre, post, hp⟩ := ih hmem
        refine ⟨(a ++ ", ").data ++ pre, post, ?_⟩
        show (a ++ ", " ++ joinComma (b :: tl)).data = _
        simp only [String.data_append, hp]
        simp [List.append_assoc]

/-- C7: `assert_no_pii` passes iff none of the four category patterns
matches anywhere in the output; on failure the message names every
matching category (the categories are checked independently); and
concretely the email example fails naming `email` while the clean
example passes. -/
theorem no_pii_spec :
    (∀ output : String,
      (assert_no_pii output = .ok () ↔ ∀ p ∈ piiPatterns, piiSearch p.2 output = false))
    ∧ (∀ (output nm : String) (re : Regex), (nm, re) ∈ piiPatterns →
        piiSearch re output = true →
        ∃ e, assert_no_pii output = .error e ∧ strCont e nm = true)
    ∧ assert_no_pii "Email me at a@b.com"
        = .error "PII detected in output: email\nOutput: Email me at a@b.com"
    ∧ assert_no_pii "nothing sensitive here" = .ok () := by
  refine ⟨?_, ?_, by decide, by decide⟩
  · intro output
    simp only [assert_no_pii]
    split_ifs with h
    · constructor
      · intro _ p hp
        have hfilter : piiPatterns.filter (fun p => piiSearch p.2 output) = [] := by
          have hmap := List.isEmpty_iff.mp h
          exact List.map_eq_nil_iff.mp hmap
        have hnp := List.filter_eq_nil_iff.mp hfilter p hp
        simpa using hnp
      · intro _
        rfl
    · apply iff_of_false
      · simp
      · intro hall
        apply h
        rw [List.isEmpty_iff, List.map_eq_nil_iff, List.filter_eq_nil_iff]
        intro p hp
        simp [hall p hp]
  · intro output nm re hmem hsearch
    have hfmem : (nm, re) ∈ piiPatterns.filter (fun p => piiSearch p.2 output) :=
      List.mem_filter.mpr ⟨hmem, by simpa using hsearch⟩
    have hnmem : nm ∈ (piiPatterns.filter (fun p => piiSearch p.2 output)).map (fun x => x.1) :=
      List.mem_map.mpr ⟨(nm, re), hfmem, rfl⟩
    have hne : ¬(((piiPatterns.filter (fun p => piiSearch p.2 output)).map (fun x => x.1)).isEmpty
        = true) := by
      intro hh
      rw [List.isEmpty_iff] at hh
      rw [hh] at hnmem
      cases hnmem
    refine ⟨"PII detected in output: "
        ++ joinComma ((piiPatterns.filter (fun p => piiSearch p.2 output)).map (fun x => x.1))
        ++ "\nOutput: " ++ output, ?_, ?_⟩
    · simp only [assert_no_pii]
      rw [if_neg hne]
    · obtain ⟨pre, post, hp⟩ := joinComma_mem_parts nm _ hnmem
      unfold strCont
      have hdata : ("PII detected in output: "
            ++ joinComma ((piiPatterns.filter (fun p => piiSearch p.2 output)).map (fun x => x.1))
            ++ "\nOutput: " ++ output).data
          = ("PII detected in output: ".data ++ pre) ++ nm.data
            ++ (post ++ "\nOutput: ".data ++ output.data) := by
        simp [hp]
      rw [hdata]
      exact occursIn_of_parts _ _ _

/-- Witness for C7: the email category matches the example output and is
named in the failure message. -/
theorem no_pii_spec_witness :
    ∃ e, assert_no_pii "Email me at a@b.com" = .error e ∧ strCont e "email" = true :=
  no_pii_spec.2.1 "Email me at a@b.com" "email" emailRegex
    (by unfold piiPatterns; exact List.mem_cons_self _ _) (by decide)

end PraisonTest

namespace PraisonTest

/-- If validating a prefix of the property list succeeds, validating the
whole list continues with the rest. -/
theorem validateProps_append_ok (fields : List (String × JValue)) (req : Option (List String))
    (ps₁ ps₂ : List (String × Schema)) (h : validateProps fields req ps₁ = .ok ()) :
    validateProps fields req (ps₁ ++ ps₂) = validateProps fields req ps₂ := by
  induction ps₁ with
  | nil => rfl
  | cons kv tl ih =>
    obtain ⟨key, vschema⟩ := kv
    simp only [validateProps] at h ⊢
    split at h
    case isTrue hc => cases h
    case isFalse hc =>
      rw [if_neg hc]
      cases hB : ((match fields.lookup key with
          | some v => _validate_schema v vschema
          | none => .ok ()) : Except String Unit) with
      | error e =>
        rw [hB] at h
        simp at h
      | ok u =>
        obtain ⟨⟩ := u
        rw [hB] at h
        exact ih h

/-- C8, counterexample: a parser producing the empty object, for the
concrete schema examples (`assert_json_valid` is parametric in the
stdlib parser). -/
def loadsEmptyObject : String → Except String JValue := fun s =>
  if s == "{}" then .ok (.obj []) else .error "Expecting value: line 1 column 1 (char 0)"

/-- C8, counterexample: a schema that lists property `a` under
`required` but has no `properties` entry for it passes on `{}` even
though `a` is absent — the required check only runs for keys listed
under `properties`, so the claim as stated is false. -/
theorem json_required_not_listed_passes :
    assert_json_valid loadsEmptyObject "{}"
      (some (.mk none none (some ["a"]))) = .ok () := by
  rfl

/-- C8 (amended): `assert_json_valid` passes on any string the parser
accepts when no schema is given; on a parse failure it raises with a
message containing the parser's error text; and when a schema lists a
property name under both `properties` and `required`, the name is
absent from the parsed object, the schema's type check passes, and the
properties listed earlier validate successfully, it raises with a
message containing the missing property name. -/
theorem json_valid_spec :
    (∀ (loads : String → Except String JValue) (output : String) (v : JValue),
      loads output = .ok v → assert_json_valid loads output none = .ok ())
    ∧ (∀ (loads : String → Except String JValue) (output e : String) (sch : Option Schema),
      loads output = .error e →
      ∃ msg, assert_json_valid loads output sch = .error msg ∧ strCont msg e = true)
    ∧ (∀ (loads : String → Except String JValue) (output : String)
        (fields : List (String × JValue)) (ty : Option String) (reqList : List String)
        (ps₁ ps₂ : List (String × Schema)) (k : String) (ksch : Schema),
      loads output = .ok (.obj fields) →
      (match ty with
       | some t => (typeMapNames.contains t && !(typeMatch t (JValue.obj fields))) = false
       | none => True) →
      validateProps fields (some reqList) ps₁ = .ok () →
      reqList.contains k = true →
      fields.lookup k = none →
      ∃ msg, assert_json_valid loads output
          (some (.mk ty (some (ps₁ ++ (k, ksch) :: ps₂)) (some reqList))) = .error msg
        ∧ strCont msg k = true) := by
  refine ⟨?_, ?_, ?_⟩
  · intro loads output v h
    simp [assert_json_valid, h]
  · intro loads output e sch h
    refine ⟨"Output is not valid JSON: " ++ e, ?_, ?_⟩
    · simp [assert_json_valid, h]
    · unfold strCont
      have hdata : ("Output is not valid JSON: " ++ e).data
          = "Output is not valid JSON: ".data ++ e.data ++ [] := by simp
      rw [hdata]
      exact occursIn_of_parts _ _ _
  · intro loads output fields ty reqList ps₁ ps₂ k ksch hload hty hearlier hreq hlook
    refine ⟨"Required property " ++ k ++ " missing", ?_, ?_⟩
    · cases ty with
      | none =>
        simp only [assert_json_valid, hload, _validate_schema]
        show validateProps fields (some reqList) (ps₁ ++ (k, ksch) :: ps₂) = _
        rw [validateProps_append_ok fields (some reqList) ps₁ _ hearlier]
        simp only [validateProps]
        rw [if_pos]
        show (reqList.contains k && (List.lookup k fields).isNone) = true
        rw [hreq, hlook]
        rfl
      | some t =>
        simp only at hty
        simp only [assert_json_valid, hload, _validate_schema, hty, Bool.false_eq_true, if_false]
        show validateProps fields (some reqList) (ps₁ ++ (k, ksch) :: ps₂) = _
        rw [validateProps_append_ok fields (some reqList) ps₁ _ hearlier]
        simp only [validateProps]
        rw [if_pos]
        show (reqList.contains k && (List.lookup k fields).isNone) = true
        rw [hreq, hlook]
        rfl
    · unfold strCont
      have hdata : ("Required property " ++ k ++ " missing").data
          = "Required property ".data ++ k.data ++ " missing".data := by simp
      rw [hdata]
      exact occursIn_of_parts _ _ _

/-- Witness for C8: a parse failure embeds the parser error, and a
required-and-listed missing property raises naming it. -/
theorem json_valid_spec_witness :
    (∃ msg, assert_json_valid loadsEmptyObject "nope" none = .error msg
      ∧ strCont msg "Expecting value: line 1 column 1 (char 0)" = true)
    ∧ (∃ msg, assert_json_valid loadsEmptyObject "{}"
        (some (.mk none (some [("a", .mk none none none)]) (some ["a"]))) = .error msg
      ∧ strCont msg "a" = true) :=
  ⟨json_valid_spec.2.1 loadsEmptyObject "nope" "Expecting value: line 1 column 1 (char 0)" none rfl,
   json_valid_spec.2.2 loadsEmptyObject "{}" [] none ["a"] [] [] "a" (.mk none none none)
     rfl trivial rfl rfl rfl⟩

end PraisonTest

namespace PraisonTest

/-- `find?` skips a block in which nothing satisfies the predicate. -/
theorem find?_append_none {α : Type} (p : α → Bool) (l₁ l₂ : List α)
    (h : l₁.find? p = none) : (l₁ ++ l₂).find? p = l₂.find? p := by
  induction l₁ with
  | nil => rfl
  | cons a t ih =>
    rw [List.find?_cons] at h
    cases hp : p a with
    | true => rw [hp] at h; cases h
    | false =>
      rw [hp] at h
      rw [List.cons_append, List.find?_cons, hp]
      exact ih h

/-- The reversed-scan loop of the adapters picks out the last message
whose role is `"user"`. -/
theorem lastUserMessage_eq (pre post : List Message) (msg : Message)
    (hrole : msg.role = some "user")
    (hpost : ∀ m' ∈ post, m'.role ≠ some "user") :
    lastUserMessage (pre ++ msg :: post) = some msg := by
  unfold lastUserMessage
  rw [List.reverse_append, List.reverse_cons, List.append_assoc]
  rw [find?_append_none]
  · simp [List.find?_cons, hrole]
  · rw [List.find?_eq_none]
    intro m' hm'
    have hmem : m' ∈ post := List.mem_reverse.mp hm'
    simp [hpost m' hmem]

/-- What the Anthropic adapter turns a content value into: a string
content verbatim, list content joined from the parts' `text` fields. -/
def contentToText : Content → String
  | .str s => s
  | .parts l => joinTextParts l

/-- C9 (amended): both adapters resolve with the content of the last
message whose role is `"user"` and forward the keyword arguments
unchanged; the Anthropic-shaped adapter concatenates the text parts of
list-valued content with single spaces, while the OpenAI-shaped adapter
passes the content value verbatim (list-valued content is not joined). -/
theorem adapters_last_user_prompt (m : MockLLM) (pre post : List Message) (msg : Message)
    (kwargs : KwArgs)
    (hrole : msg.role = some "user")
    (hpost : ∀ m' ∈ post, m'.role ≠ some "user") :
    AnthropicMock.create m (pre ++ msg :: post) kwargs
      = m.get_response (.str (contentToText (msg.content.getD (.str "")))) kwargs
    ∧ OpenAIMock.create m (pre ++ msg :: post) kwargs
      = m.get_response (msg.content.getD (.str "")) kwargs := by
  have hl := lastUserMessage_eq pre post msg hrole hpost
  constructor
  · simp only [AnthropicMock.create, hl]
    cases hc : msg.content.getD (.str "") <;> simp [contentToText]
  · simp only [OpenAIMock.create, hl]

/-- A two-part user message content, as the OpenAI/Anthropic message
APIs shape it. -/
def partsExample : List (List (String × String)) :=
  [[("type", "text"), ("text", "hi")], [("type", "text"), ("text", "there")]]

def msgsExample : List Message :=
  [{ role := some "user", content := some (.parts partsExample) }]

/-- C9, counterexample: on a list-valued user content the OpenAI-shaped
adapter records the raw part list as the prompt, not the space-joined
string the claim asserts (which is what the Anthropic-shaped adapter
records). -/
theorem openai_parts_not_joined :
    ((OpenAIMock.create MockLLM.init msgsExample []).1.call_history.map (fun r => r.prompt))
      = [Content.parts partsExample]
    ∧ ((AnthropicMock.create MockLLM.init msgsExample []).1.call_history.map (fun r => r.prompt))
      = [Content.str "hi there"]
    ∧ Content.parts partsExample ≠ Content.str "hi there" := by
  refine ⟨rfl, rfl, by decide⟩

/-- Witness for C9: the single-user-message example, joined by the
Anthropic adapter and passed verbatim by the OpenAI adapter. -/
theorem adapters_last_user_prompt_witness :
    AnthropicMock.create MockLLM.init msgsExample []
      = MockLLM.init.get_response (.str "hi there") []
    ∧ OpenAIMock.create MockLLM.init msgsExample []
      = MockLLM.init.get_response (.parts partsExample) [] := by
  have h := adapters_last_user_prompt MockLLM.init [] []
    { role := some "user", content := some (.parts partsExample) } []
    rfl (by intro m' hm'; cases hm')
  exact ⟨h.1, h.2⟩

end PraisonTest
